import Mathlib

/-!
Verification of the account-pool provisioning client
(`src/client/src/providers/accounts.tsx`).

The source is a single-threaded (cooperatively scheduled) TypeScript module.
We embed it shallowly:

* Lamport amounts and counters are `ℕ`.
* Keypairs and public keys are modelled as `ℕ` identifiers; fresh keypair
  generation (`new Keypair()`) is modelled by drawing successive values from
  an arbitrary supply function `freshKey : ℕ → ℕ`.
* The RPC connection is abstracted to the pure data it provides
  (`minBalanceForRentExemption`, `lamportsPerSignature`).
* `Math.ceil` over JavaScript float division is embedded as `Nat.ceil` over
  exact `ℚ` division (for the magnitudes involved, `1000 / p / 8`, the float
  computation is exact enough that the two agree).
* The async create/close callbacks are split into their synchronous entry
  phase (all code up to the first `await`: precondition checks, the
  `creationLock` gate, and the initial status transition) and their finish
  phase (the `try`/`catch`/`finally` continuation applied to the outcome of
  the awaited body).  The cooperative scheduler never preempts inside either
  phase, so each phase is a pure state transformer.
-/

/-- Lifecycle status of the account pool (`Status` union type in the source). -/
inductive Status where
  | initializing
  | inactive
  | creating
  | closing
  | active
deriving DecidableEq, Repr

/-- Record `AccountCosts` as computed by `calculateCosts`. -/
structure AccountCosts where
  total : ℕ
  feeAccountCost : ℕ
  programAccountCost : ℕ
deriving DecidableEq, Repr

/-- The pool `Config` record returned by a successful `_create` run
(`program` holds the public keys of the program accounts). -/
structure Config where
  program : List ℕ
  feePayerKeypairs : List ℕ
  accountCapacity : ℕ
deriving DecidableEq, Repr

/-- Constant `TX_PER_BYTE = 8` from the source. -/
def TX_PER_BYTE : ℕ := 8

/-- Source expression `Math.ceil(1000 / parallelization / TX_PER_BYTE)`. -/
def calculateProgrampace (parallelization : ℕ) : ℕ :=
  ⌈(1000 : ℚ) / parallelization / TX_PER_BYTE⌉₊

/-- Source expression `TX_PER_BYTE * programpace`. -/
def calculateTransactionsPerAccount (programpace : ℕ) : ℕ :=
  TX_PER_BYTE * programpace

/-- The ledger-derived quantities `calculateCosts` reads from the connection:
rent-exemption minimum balances per byte size and the per-signature fee from
the current fee schedule. -/
structure LedgerEnv where
  minBalanceForRentExemption : ℕ → ℕ
  lamportsPerSignature : ℕ

/-- Embedding of `calculateCosts(connection, parallelization)`, with the connection
abstracted to a `LedgerEnv`. -/
def calculateCosts (env : LedgerEnv) (parallelization : ℕ) : AccountCosts :=
  let programpace := calculateProgrampace parallelization
  let programAccountCost := env.minBalanceForRentExemption programpace
  let feeAccountRent := env.minBalanceForRentExemption 0
  let signatureFee := env.lamportsPerSignature
  let txPerAccount := calculateTransactionsPerAccount programpace
  let feeAccountCost := txPerAccount * signatureFee + feeAccountRent
  { feeAccountCost := feeAccountCost
    programAccountCost := programAccountCost
    total := parallelization * (programAccountCost + feeAccountCost) }

/-- The provider state touched by the create/close callbacks: the `status`
state variable, the pool config state variable, and the `creationLock` ref. -/
structure PoolState where
  status : Status
  config : Option Config
  lock : Bool
deriving DecidableEq, Repr

/-- Presence of the ambient capabilities the callbacks check before acting:
`connection`, `breakProgramId`, `wallet`, and the computed `costs`. -/
structure Env where
  hasConnection : Bool
  hasProgramId : Bool
  hasWallet : Bool
  hasCosts : Bool
deriving DecidableEq, Repr

/-- How the synchronous entry phase of `create`/`close` returned:
`threw` = a precondition check threw; `noopLocked` = the `creationLock` gate
was held, so the call logged and returned; `noopStatus` = the status guard
failed, so the call returned without starting; `proceed` = the operation
acquired the lock and continues into its async body. -/
inductive EntryResult where
  | threw
  | noopLocked
  | noopStatus
  | proceed
deriving DecidableEq, Repr

/-- Entry phase of the `create` callback: the checks and state writes that
run synchronously before the first `await`, in source order (connection,
program id, wallet, costs, `creationLock`, then the `status === "inactive"`
guard; on success it sets the lock and `setStatus("creating")`). -/
def createEntry (env : Env) (s : PoolState) : PoolState × EntryResult :=
  if !env.hasConnection then (s, .threw)
  else if !env.hasProgramId then (s, .threw)
  else if !env.hasWallet then (s, .threw)
  else if !env.hasCosts then (s, .threw)
  else if s.lock then (s, .noopLocked)
  else if s.status = .inactive then
    ({ s with lock := true, status := .creating }, .proceed)
  else (s, .noopStatus)

/-- Finish phase of the `create` callback, applied to the outcome of
`await _create(...)`: on success it stores the new config and sets status
`active`; on failure the `catch` block logs, clears the config and resets
status to `inactive` (the error is not rethrown, so the promise resolves);
the `finally` block clears the lock on both paths.  The second component is
the settlement of the promise returned to the caller. -/
def createFinish (s : PoolState) (outcome : Except Unit Config) :
    PoolState × Except Unit Unit :=
  match outcome with
  | .ok cfg => ({ s with config := some cfg, status := .active, lock := false }, .ok ())
  | .error _ => ({ s with config := none, status := .inactive, lock := false }, .ok ())

/-- Entry phase of the `close` callback (checks in source order: connection,
wallet, `creationLock`, then the `status === "inactive"` guard; on success it
sets the lock and `setStatus("closing")`; from any other status the callback
falls through and returns without acting). -/
def closeEntry (env : Env) (s : PoolState) : PoolState × EntryResult :=
  if !env.hasConnection then (s, .threw)
  else if !env.hasWallet then (s, .threw)
  else if s.lock then (s, .noopLocked)
  else if s.status = .inactive then
    ({ s with lock := true, status := .closing }, .proceed)
  else (s, .noopStatus)

/-- Finish phase of the `close` callback, applied to the outcome of
`await _close(...)`: the `finally` block resets status to `inactive` and
clears the lock on both paths; there is no `catch`, so a failure outcome is
rethrown to the caller (the promise rejects). -/
def closeFinish (s : PoolState) (outcome : Except Unit Unit) :
    PoolState × Except Unit Unit :=
  ({ s with status := .inactive, lock := false }, outcome)

/-- The state touched by the cost-calculation effect: the
`calculationCounter` ref, the `costs` state variable and the `status` state
variable. -/
structure CalcState where
  counter : ℕ
  costs : Option AccountCosts
  status : Status
deriving DecidableEq, Repr

/-- Start of the cost-calculation effect (runs whenever the connection or
parallelization changes): it increments `calculationCounter`, resets status
to `initializing`, and captures the new counter value as `savedCounter` for
the async computation it launches.  Returns the captured value and the new
state. -/
def startCalculation (s : CalcState) : ℕ × CalcState :=
  let next := s.counter + 1
  (next, { counter := next, costs := s.costs, status := .initializing })

/-- Completion of one successful cost computation: the result is applied only
if `calculationCounter.current === savedCounter`; then `setCosts` stores it
and the functional `setStatus` update promotes `initializing` to `inactive`
while leaving any other status unchanged.  A stale result (counter moved on)
changes nothing. -/
def completeCalculation (savedCounter : ℕ) (result : AccountCosts)
    (s : CalcState) : CalcState :=
  if s.counter = savedCounter then
    { s with
      costs := some result
      status := if s.status = .initializing then .inactive else s.status }
  else s

/-- The retry loop of `_createAccountBatch`: `retries` starts at 3; each
iteration awaits `sendAndConfirmTransaction` (whether attempt number `k`,
counting from 0, succeeds is given by `ok k`); success breaks out of the
loop, failure decrements `retries` and throws "Couldn't confirm transaction"
when it hits 0.  The value returned counts the attempts made (`.ok n` =
success on the `n`-th attempt, `.error n` = fatal error after `n`
attempts). -/
def retryWhile (ok : ℕ → Bool) : ℕ → ℕ → Except ℕ ℕ
  | 0, attempts => .ok attempts
  | retries + 1, attempts =>
    if ok attempts then .ok (attempts + 1)
    else if retries = 0 then .error (attempts + 1)
    else retryWhile ok retries (attempts + 1)

/-- The submission part of `_createAccountBatch`: `let retries = 3` then the
retry loop, starting with zero attempts made. -/
def submitBatchRetry (ok : ℕ → Bool) : Except ℕ ℕ :=
  retryWhile ok 3 0

/-- The length precondition at the top of `_createAccountBatch`:
`if (batchSize !== newFeePayers.length) throw new Error("Internal error")`. -/
def batchSizeCheck (newFeePayers newProgram : List ℕ) : Except String Unit :=
  if newProgram.length ≠ newFeePayers.length then .error "Internal error"
  else .ok ()

/-- Constant `BATCH_SIZE = 5` from the source — max batch that fits in one transaction. -/
def BATCH_SIZE : ℕ := 5

/-- The batching `while` loop of `_create`: starting from `accountIndex`, it
calls `_createAccountBatch` with
`feePayers.slice(accountIndex, accountIndex + BATCH_SIZE)` and
`program.slice(accountIndex, accountIndex + BATCH_SIZE)` and advances
`accountIndex` by `BATCH_SIZE` while `accountIndex < parallelization`.
Returns the list of `(feePayer batch, program batch)` argument pairs in call
order. -/
def batchLoop (feePayers program : List ℕ) (parallelization accountIndex : ℕ) :
    List (List ℕ × List ℕ) :=
  if h : accountIndex < parallelization then
    ((feePayers.drop accountIndex).take BATCH_SIZE,
      (program.drop accountIndex).take BATCH_SIZE) ::
      batchLoop feePayers program parallelization (accountIndex + BATCH_SIZE)
  else []
termination_by parallelization - accountIndex
decreasing_by simp_wf; unfold BATCH_SIZE; omega

/-- Modelled from the spec: `getFeePayers` is imported from `utils`, which is
not among the provided sources.  Per the spec, `close` "recomputes the
current fee-payer set deterministically from parallelization", so it is
modelled as a fixed deterministic enumeration of `parallelization` keypair
identifiers, depending on nothing else. -/
def getFeePayers (parallelization : ℕ) : List ℕ :=
  List.range parallelization

/-- Embedding of `_create(connection, breakProgramId, payer, costs, parallelization)`:
derives the fee payers via `getFeePayers(parallelization)`, generates
`parallelization` fresh program-account keypairs (drawn from the supply
`freshKey`), runs the batching loop, and returns the `Config` whose
`program` field holds the fresh keypairs' public keys.  The first component
is the returned config, the second the batch calls the loop makes. -/
def _create (freshKey : ℕ → ℕ) (parallelization : ℕ) :
    Config × List (List ℕ × List ℕ) :=
  let programpace := calculateProgrampace parallelization
  let feePayers := getFeePayers parallelization
  let program := (List.range parallelization).map freshKey
  let batches := batchLoop feePayers program parallelization 0
  let txPerAccount := calculateTransactionsPerAccount programpace
  ({ accountCapacity := txPerAccount
     feePayerKeypairs := feePayers
     program := program }, batches)

/-! ## Helper lemmas -/

/-- Ceiling of an exact natural division, as natural ceiling division. -/
lemma nat_ceil_cast_div (a b : ℕ) (ha : 0 < a) (hb : 0 < b) :
    ⌈(a : ℚ) / b⌉₊ = (a + b - 1) / b := by
  have hbq : (0 : ℚ) < b := by exact_mod_cast hb
  have h1 : b * ((a + b - 1) / b) + (a + b - 1) % b = a + b - 1 :=
    Nat.div_add_mod _ _
  have hr : (a + b - 1) % b < b := Nat.mod_lt _ hb
  have hge : 1 ≤ (a + b - 1) / b := by
    rw [Nat.le_div_iff_mul_le hb]; omega
  obtain ⟨m, hm⟩ : ∃ m, (a + b - 1) / b = m + 1 :=
    ⟨(a + b - 1) / b - 1, by omega⟩
  rw [hm] at h1 ⊢
  rw [Nat.ceil_eq_iff (by omega)]
  rw [Nat.mul_succ] at h1
  have hmb : m * b = b * m := Nat.mul_comm m b
  have hmb2 : (m + 1) * b = m * b + b := Nat.succ_mul m b
  simp only [Nat.add_sub_cancel]
  constructor
  · rw [lt_div_iff₀ hbq]
    exact_mod_cast (by omega : m * b < a)
  · rw [div_le_iff₀ hbq]
    exact_mod_cast (by omega : a ≤ (m + 1) * b)

/-- Closed form: `calculateProgrampace P` is the natural ceiling division of 1000 by `8 * P`. -/
lemma calculateProgrampace_eq (P : ℕ) (hP : 1 ≤ P) :
    calculateProgrampace P = (1000 + 8 * P - 1) / (8 * P) := by
  have key := nat_ceil_cast_div 1000 (8 * P) (by norm_num) (by omega)
  unfold calculateProgrampace TX_PER_BYTE
  rw [div_div]
  have hc : ((P : ℚ)) * ((8 : ℕ) : ℚ) = ((8 * P : ℕ) : ℚ) := by
    push_cast; ring
  rw [hc]
  simpa using key

/-! ## Claim theorems -/

/-- Claim C1: for every parallelization `P ≥ 1`, `calculateCosts` returns
`AccountCosts` with storage units `ceil(1000 / P / 8)` (equal to the natural
ceiling division `(1000 + 8P - 1) / (8P)`), `txPerAccount = 8 * storageUnits`,
`programAccountCost` the minimum rent-exemption balance for `storageUnits`
bytes, `feeAccountCost = txPerAccount * signatureFee +` the rent-exemption
minimum for 0 bytes, and `total = P * (programAccountCost + feeAccountCost)`;
in particular `P = 4` gives 32 storage units and 256 transactions per
account. -/
theorem claim_C1 (env : LedgerEnv) (P : ℕ) (hP : 1 ≤ P) :
    calculateProgrampace P = (1000 + 8 * P - 1) / (8 * P) ∧
    calculateTransactionsPerAccount (calculateProgrampace P) =
      8 * calculateProgrampace P ∧
    (calculateCosts env P).programAccountCost =
      env.minBalanceForRentExemption (calculateProgrampace P) ∧
    (calculateCosts env P).feeAccountCost =
      calculateTransactionsPerAccount (calculateProgrampace P) *
        env.lamportsPerSignature + env.minBalanceForRentExemption 0 ∧
    (calculateCosts env P).total =
      P * ((calculateCosts env P).programAccountCost +
        (calculateCosts env P).feeAccountCost) ∧
    calculateProgrampace 4 = 32 ∧
    calculateTransactionsPerAccount (calculateProgrampace 4) = 256 := by
  have h4 : calculateProgrampace 4 = 32 := by
    rw [calculateProgrampace_eq 4 (by norm_num)]
  refine ⟨calculateProgrampace_eq P hP, rfl, rfl, rfl, rfl, h4, ?_⟩
  rw [h4]
  rfl

theorem claim_C1_witness :
    calculateProgrampace 4 = 32 ∧
    (calculateCosts ⟨fun n => 2 * n + 50, 5000⟩ 4).total =
      4 * ((calculateCosts ⟨fun n => 2 * n + 50, 5000⟩ 4).programAccountCost +
        (calculateCosts ⟨fun n => 2 * n + 50, 5000⟩ 4).feeAccountCost) :=
  ⟨(claim_C1 ⟨fun n => 2 * n + 50, 5000⟩ 4 (by norm_num)).2.2.2.2.2.1,
    (claim_C1 ⟨fun n => 2 * n + 50, 5000⟩ 4 (by norm_num)).2.2.2.2.1⟩

/-- Claim C2: at most one create-or-close operation is in flight: while the
`creationLock` flag is held, a second `create` or `close` call (with its
capability checks passing) observes the flag and returns as a no-op without
changing status or config; whenever an entry phase proceeds it holds the
flag; and every finish phase (success or failure) clears the flag again. -/
theorem claim_C2 (env : Env) (s : PoolState) :
    (env.hasConnection = true → env.hasProgramId = true →
      env.hasWallet = true → env.hasCosts = true → s.lock = true →
      createEntry env s = (s, .noopLocked) ∧
      closeEntry env s = (s, .noopLocked)) ∧
    ((createEntry env s).2 = .proceed → (createEntry env s).1.lock = true) ∧
    ((closeEntry env s).2 = .proceed → (closeEntry env s).1.lock = true) ∧
    (∀ o, (createFinish s o).1.lock = false) ∧
    (∀ o, (closeFinish s o).1.lock = false) := by
  refine ⟨?_, ?_, ?_, ?_, ?_⟩
  · intro h1 h2 h3 h4 h5
    simp [createEntry, closeEntry, h1, h2, h3, h4, h5]
  · intro h
    unfold createEntry at h ⊢
    split_ifs at h ⊢ <;> simp_all
  · intro h
    unfold closeEntry at h ⊢
    split_ifs at h ⊢ <;> simp_all
  · intro o
    cases o <;> rfl
  · intro o
    rfl

theorem claim_C2_witness :
    createEntry ⟨true, true, true, true⟩ ⟨Status.inactive, none, true⟩ =
      (⟨Status.inactive, none, true⟩, .noopLocked) ∧
    closeEntry ⟨true, true, true, true⟩ ⟨Status.inactive, none, true⟩ =
      (⟨Status.inactive, none, true⟩, .noopLocked) :=
  (claim_C2 ⟨true, true, true, true⟩ ⟨Status.inactive, none, true⟩).1
    rfl rfl rfl rfl rfl

/-- Claim C4: a batch submission whose `sendAndConfirmTransaction` always
fails is attempted exactly 3 times with no intervening delay, after which the
retry loop raises the fatal could-not-confirm error and makes no further
attempt; if an attempt succeeds, no further attempts are made (the attempt
count returned is that of the first success). -/
theorem claim_C4 (ok : ℕ → Bool) :
    ((∀ n, n < 3 → ok n = false) → submitBatchRetry ok = .error 3) ∧
    (ok 0 = true → submitBatchRetry ok = .ok 1) ∧
    (ok 0 = false → ok 1 = true → submitBatchRetry ok = .ok 2) ∧
    (ok 0 = false → ok 1 = false → ok 2 = true →
      submitBatchRetry ok = .ok 3) := by
  refine ⟨?_, ?_, ?_, ?_⟩
  · intro h
    have h0 := h 0 (by norm_num)
    have h1 := h 1 (by norm_num)
    have h2 := h 2 (by norm_num)
    simp [submitBatchRetry, retryWhile, h0, h1, h2]
  · intro h0
    simp [submitBatchRetry, retryWhile, h0]
  · intro h0 h1
    simp [submitBatchRetry, retryWhile, h0, h1]
  · intro h0 h1 h2
    simp [submitBatchRetry, retryWhile, h0, h1, h2]

theorem claim_C4_witness :
    submitBatchRetry (fun _ => false) = .error 3 :=
  (claim_C4 (fun _ => false)).1 (fun _ _ => rfl)

/-- Claim C5, counterexample to "the returned promise rejects": a `create`
run whose awaited body fails settles as `.ok ()` — the `catch` block logs and
swallows the error, so the promise returned to the caller resolves instead of
rejecting (the state is still reset: status `inactive`, config discarded,
lock cleared). -/
theorem claim_C5_counterexample :
    createFinish ⟨Status.creating, none, true⟩ (Except.error ()) =
      (⟨Status.inactive, none, false⟩, Except.ok ()) := rfl

/-- Claim C5 (amended): when a started create or close operation fails, the
state is reset (status `inactive`, gate cleared, and for create the partial
config discarded) with no automatic retry; `close` surfaces the error to the
caller (the promise rejects), but `create` logs and swallows it, so its
promise resolves normally. -/
theorem claim_C5 (s : PoolState) (e : Unit) :
    createFinish s (Except.error e) =
      ({ s with config := none, status := .inactive, lock := false },
        Except.ok ()) ∧
    closeFinish s (Except.error e) =
      ({ s with status := .inactive, lock := false }, Except.error e) :=
  ⟨rfl, rfl⟩

/-- Claim C6: a cost computation started under an older generation never
overwrites state once the generation counter has moved on: completing with a
stale saved counter is the identity on the state (no costs write, no status
change, no error), and in particular the computation captured by one start is
stale after a second start. -/
theorem claim_C6 (s : CalcState) (r : AccountCosts) (saved : ℕ) :
    (saved ≠ s.counter → completeCalculation saved r s = s) ∧
    completeCalculation (startCalculation s).1 r
        (startCalculation (startCalculation s).2).2 =
      (startCalculation (startCalculation s).2).2 := by
  constructor
  · intro h
    unfold completeCalculation
    rw [if_neg (by omega)]
  · unfold startCalculation completeCalculation
    simp

theorem claim_C6_witness :
    completeCalculation 5 ⟨3000, 500, 1000⟩ ⟨0, none, Status.initializing⟩ =
      ⟨0, none, Status.initializing⟩ :=
  (claim_C6 ⟨0, none, Status.initializing⟩ ⟨3000, 500, 1000⟩ 5).1
    (by norm_num)

/-- Claim C7: `close` starts the teardown (status `closing`, lock taken) only
when the current status is exactly `inactive` (with a valid connection and
wallet and a clear gate); from any other status — including `active` — it
returns without acting. -/
theorem claim_C7 (env : Env) (s : PoolState)
    (hc : env.hasConnection = true) (hw : env.hasWallet = true)
    (hl : s.lock = false) :
    ((closeEntry env s).2 = .proceed ↔ s.status = .inactive) ∧
    (s.status = .inactive →
      closeEntry env s =
        ({ s with lock := true, status := .closing }, .proceed)) ∧
    (s.status ≠ .inactive → closeEntry env s = (s, .noopStatus)) := by
  by_cases h : s.status = .inactive <;>
    simp [closeEntry, hc, hw, hl, h]

theorem claim_C7_witness :
    closeEntry ⟨true, true, true, true⟩ ⟨Status.active, none, false⟩ =
      (⟨Status.active, none, false⟩, .noopStatus) :=
  (claim_C7 ⟨true, true, true, true⟩ ⟨Status.active, none, false⟩
    rfl rfl rfl).2.2 (by simp)

/-- Claim C8: a successful cost computation for the current generation stores
the costs and promotes status `initializing → inactive`, but never overrides
a status that has already progressed past `initializing`: for any other
current status, the status is left unchanged. -/
theorem claim_C8 (s : CalcState) (r : AccountCosts) :
    (completeCalculation s.counter r s).costs = some r ∧
    (s.status = .initializing →
      (completeCalculation s.counter r s).status = .inactive) ∧
    (s.status ≠ .initializing →
      (completeCalculation s.counter r s).status = s.status) := by
  by_cases h : s.status = .initializing <;>
    simp [completeCalculation, h]

theorem claim_C8_witness :
    (completeCalculation 0 ⟨3000, 500, 1000⟩
        ⟨0, none, Status.initializing⟩).status = Status.inactive :=
  (claim_C8 ⟨0, none, Status.initializing⟩ ⟨3000, 500, 1000⟩).2.1 rfl

/-- Claim C9, counterexample to "fee-payer keypairs are freshly generated and
not deterministically re-derivable from parallelization alone": two `_create`
runs drawing their fresh keypairs from disjoint supplies still return
identical `feePayerKeypairs` (they come from the deterministic
`getFeePayers(parallelization)`), while the program keypairs — the ones that
really are fresh — differ between the runs. -/
theorem claim_C9_counterexample :
    ((_create id 4).1).feePayerKeypairs =
      ((_create (fun k => k + 1000) 4).1).feePayerKeypairs ∧
    ((_create id 4).1).program ≠
      ((_create (fun k => k + 1000) 4).1).program := by
  constructor
  · rfl
  · decide

/-- Claim C9 (amended): `create` derives its fee payers deterministically as
`getFeePayers(parallelization)` — the same set on every run, independent of
the fresh-keypair supply — generates `parallelization` fresh program-account
keypairs from the supply, and returns them in the config (`feePayerKeypairs`
is the derived set, `program` the fresh keypairs' public keys, both of length
`parallelization`). -/
theorem claim_C9 (freshKey : ℕ → ℕ) (P : ℕ) :
    ((_create freshKey P).1).feePayerKeypairs = getFeePayers P ∧
    ((_create freshKey P).1).program = (List.range P).map freshKey ∧
    ((_create freshKey P).1).feePayerKeypairs.length = P ∧
    ((_create freshKey P).1).program.length = P ∧
    ∀ g : ℕ → ℕ, ((_create g P).1).feePayerKeypairs =
      ((_create freshKey P).1).feePayerKeypairs := by
  refine ⟨rfl, rfl, ?_, ?_, fun g => rfl⟩
  · simp [_create, getFeePayers]
  · simp [_create]

/-- The batching loop is empty exactly when the `while` guard fails at
entry. -/
lemma batchLoop_nil_iff (fp pr : List ℕ) (P i : ℕ) :
    batchLoop fp pr P i = [] ↔ P ≤ i := by
  constructor
  · intro hnil
    by_contra hlt
    push_neg at hlt
    rw [batchLoop, dif_pos hlt] at hnil
    exact (List.cons_ne_nil _ _) hnil
  · intro hle
    rw [batchLoop, dif_neg (by omega)]

/-- Number of iterations of the batching loop from index `i`. -/
lemma batchLoop_length_aux (fp pr : List ℕ) (P : ℕ) :
    ∀ k i, P - i = k → (batchLoop fp pr P i).length = (P - i + 4) / 5 := by
  intro k
  induction k using Nat.strong_induction_on with
  | _ k ih =>
    intro i hk
    rw [batchLoop]
    split
    · rename_i h
      have hrec := ih (P - (i + BATCH_SIZE))
        (by simp only [BATCH_SIZE]; omega) (i + BATCH_SIZE) rfl
      simp only [List.length_cons, hrec, BATCH_SIZE] at *
      omega
    · rename_i h
      simp only [List.length_nil]
      omega

/-- The first components of the batch pairs concatenate back to the
remaining fee payers. -/
lemma batchLoop_join_fst_aux (fp pr : List ℕ) (P : ℕ) (hfp : fp.length = P) :
    ∀ k i, P - i = k →
      ((batchLoop fp pr P i).map Prod.fst).flatten = fp.drop i := by
  intro k
  induction k using Nat.strong_induction_on with
  | _ k ih =>
    intro i hk
    rw [batchLoop]
    split
    · rename_i h
      have hrec := ih (P - (i + BATCH_SIZE))
        (by simp only [BATCH_SIZE]; omega) (i + BATCH_SIZE) rfl
      simp only [List.map_cons, List.flatten_cons, hrec]
      exact List.drop_take_append_drop fp i BATCH_SIZE
    · rename_i h
      simp only [List.map_nil, List.flatten_nil]
      exact (List.drop_eq_nil_of_le (by omega)).symm

/-- The second components of the batch pairs concatenate back to the
remaining program accounts. -/
lemma batchLoop_join_snd_aux (fp pr : List ℕ) (P : ℕ) (hpr : pr.length = P) :
    ∀ k i, P - i = k →
      ((batchLoop fp pr P i).map Prod.snd).flatten = pr.drop i := by
  intro k
  induction k using Nat.strong_induction_on with
  | _ k ih =>
    intro i hk
    rw [batchLoop]
    split
    · rename_i h
      have hrec := ih (P - (i + BATCH_SIZE))
        (by simp only [BATCH_SIZE]; omega) (i + BATCH_SIZE) rfl
      simp only [List.map_cons, List.flatten_cons, hrec]
      exact List.drop_take_append_drop pr i BATCH_SIZE
    · rename_i h
      simp only [List.map_nil, List.flatten_nil]
      exact (List.drop_eq_nil_of_le (by omega)).symm

/-- Every batch pair the loop produces has components of equal, nonzero
length of at most `BATCH_SIZE`. -/
lemma batchLoop_mem_length_aux (fp pr : List ℕ) (P : ℕ)
    (hfp : fp.length = P) (hpr : pr.length = P) :
    ∀ k i, P - i = k → ∀ b ∈ batchLoop fp pr P i,
      b.1.length = b.2.length ∧ 1 ≤ b.1.length ∧ b.1.length ≤ BATCH_SIZE := by
  intro k
  induction k using Nat.strong_induction_on with
  | _ k ih =>
    intro i hk b hb
    rw [batchLoop] at hb
    split at hb
    · rename_i h
      rcases List.mem_cons.mp hb with rfl | hb2
      · refine ⟨?_, ?_, ?_⟩
        · simp [List.length_take, List.length_drop, hfp, hpr]
        · simp only [List.length_take, List.length_drop, hfp, BATCH_SIZE]
          omega
        · simp only [List.length_take, List.length_drop, hfp, BATCH_SIZE]
          omega
      · exact ih (P - (i + BATCH_SIZE))
          (by simp only [BATCH_SIZE]; omega) (i + BATCH_SIZE) rfl b hb2
    · simp at hb

/-- Every batch pair except possibly the last is full (`BATCH_SIZE` on both
components). -/
lemma batchLoop_dropLast_aux (fp pr : List ℕ) (P : ℕ)
    (hfp : fp.length = P) (hpr : pr.length = P) :
    ∀ k i, P - i = k → ∀ b ∈ (batchLoop fp pr P i).dropLast,
      b.1.length = BATCH_SIZE ∧ b.2.length = BATCH_SIZE := by
  intro k
  induction k using Nat.strong_induction_on with
  | _ k ih =>
    intro i hk b hb
    rw [batchLoop] at hb
    split at hb
    · rename_i h
      by_cases h2 : i + BATCH_SIZE < P
      · have hne : batchLoop fp pr P (i + BATCH_SIZE) ≠ [] := by
          rw [Ne, batchLoop_nil_iff]; omega
        obtain ⟨c, cs, hcs⟩ := List.exists_cons_of_ne_nil hne
        rw [hcs, List.dropLast_cons₂, ← hcs] at hb
        rcases List.mem_cons.mp hb with rfl | hb2
        · constructor
          · simp only [List.length_take, List.length_drop, hfp, BATCH_SIZE] at *
            omega
          · simp only [List.length_take, List.length_drop, hpr, BATCH_SIZE] at *
            omega
        · exact ih (P - (i + BATCH_SIZE))
            (by simp only [BATCH_SIZE]; omega) (i + BATCH_SIZE) rfl b hb2
      · have hnil : batchLoop fp pr P (i + BATCH_SIZE) = [] := by
          rw [batchLoop_nil_iff]; omega
        rw [hnil] at hb
        simp at hb
    · simp at hb

/-- Claim C3: for every parallelization `P ≥ 1`, the batching loop of
`_create` partitions the `P` fee-payer / program-account pairs into
contiguous batches of at most 5 in strict index order: the number of batches
is `ceil(P / 5)`, every batch except possibly the last has exactly 5 paired
accounts, every batch is nonempty with equal-length components, and the
concatenation of the batches restores both full sequences (so their union is
the full requested set, with no duplicates and in order). -/
theorem claim_C3 (fp pr : List ℕ) (P : ℕ) (hP : 1 ≤ P)
    (hfp : fp.length = P) (hpr : pr.length = P) :
    (batchLoop fp pr P 0).length = ⌈(P : ℚ) / 5⌉₊ ∧
    (∀ b ∈ (batchLoop fp pr P 0).dropLast,
      b.1.length = 5 ∧ b.2.length = 5) ∧
    (∀ b ∈ batchLoop fp pr P 0,
      1 ≤ b.1.length ∧ b.1.length ≤ 5 ∧ b.1.length = b.2.length) ∧
    ((batchLoop fp pr P 0).map Prod.fst).flatten = fp ∧
    ((batchLoop fp pr P 0).map Prod.snd).flatten = pr := by
  have hlen := batchLoop_length_aux fp pr P (P - 0) 0 rfl
  have hceil : ⌈(P : ℚ) / 5⌉₊ = (P + 5 - 1) / 5 :=
    nat_ceil_cast_div P 5 hP (by norm_num)
  refine ⟨?_, ?_, ?_, ?_, ?_⟩
  · rw [hlen, hceil]
    omega
  · intro b hb
    have h := batchLoop_dropLast_aux fp pr P hfp hpr (P - 0) 0 rfl b hb
    simpa [BATCH_SIZE] using h
  · intro b hb
    have h := batchLoop_mem_length_aux fp pr P hfp hpr (P - 0) 0 rfl b hb
    simp only [BATCH_SIZE] at h
    exact ⟨h.2.1, h.2.2, h.1⟩
  · simpa using batchLoop_join_fst_aux fp pr P hfp (P - 0) 0 rfl
  · simpa using batchLoop_join_snd_aux fp pr P hpr (P - 0) 0 rfl

theorem claim_C3_witness :
    (batchLoop (List.range 12) (List.range 12) 12 0).length =
      ⌈(12 : ℚ) / 5⌉₊ ∧
    ((batchLoop (List.range 12) (List.range 12) 12 0).map Prod.fst).flatten =
      List.range 12 :=
  ⟨(claim_C3 (List.range 12) (List.range 12) 12 (by norm_num)
      (by simp) (by simp)).1,
    (claim_C3 (List.range 12) (List.range 12) 12 (by norm_num)
      (by simp) (by simp)).2.2.2.1⟩

/-- Claim C10: for every call the batching loop of `_create` makes to
`_createAccountBatch`, the fatal internal-consistency branch for mismatched
batch lengths is unreachable: both batch arguments are slices with identical
bounds of two arrays of length `parallelization`, so their lengths agree and
the length check passes. -/
theorem claim_C10 (freshKey : ℕ → ℕ) (P : ℕ) :
    ∀ b ∈ (_create freshKey P).2,
      b.1.length = b.2.length ∧ batchSizeCheck b.1 b.2 = .ok () := by
  intro b hb
  have hfp : (getFeePayers P).length = P := by simp [getFeePayers]
  have hpr : ((List.range P).map freshKey).length = P := by simp
  have hb2 : b ∈ batchLoop (getFeePayers P) ((List.range P).map freshKey)
      P 0 := hb
  have hm := batchLoop_mem_length_aux (getFeePayers P)
    ((List.range P).map freshKey) P hfp hpr (P - 0) 0 rfl b hb2
  refine ⟨hm.1, ?_⟩
  unfold batchSizeCheck
  rw [if_neg (by omega)]

theorem claim_C10_witness :
    batchSizeCheck [0, 1, 2] [0, 1, 2] = .ok () :=
  (claim_C10 id 3 ([0, 1, 2], [0, 1, 2])
    (by simp [_create, getFeePayers, batchLoop, BATCH_SIZE,
      List.range_succ])).2
